import Mathlib

/-!
Verification of hacktv's Videocrypt conditional-access engine
(`src/videocrypt-ca.c`) and of the ffmpeg feed pipeline
(packet queues, frame double-buffers, video/audio scaler threads).

Machine integers are modelled as `Nat` with explicit reductions
modulo `2^8`, `2^32` or `2^60` exactly where the C code truncates.
-/

set_option maxRecDepth 10000

/-- Addition of two bytes modulo 256 (C `uint8_t` addition). -/
def add8 (x y : Nat) : Nat := (x + y) % 256

/-- Truncated subtraction modulo 256: the value of the C expression
`(uint8_t)(x - y)` for non-negative `x`, `y` with `y` reduced mod 256. -/
def sub8 (x y : Nat) : Nat := (x % 256 + (256 - y % 256)) % 256

/-- Byte complement: the value of the C expression `(uint8_t)(~x)`. -/
def not8 (x : Nat) : Nat := 255 - x % 256

/-- Eight-bit rotate left by one, from `_rotate_left` in videocrypt-ca.c:
`(((x) << 1) | ((x) >> 7)) & 0xFF` on a `uint8_t` argument. -/
def rotateLeft (x : Nat) : Nat := ((x <<< 1) ||| (x >>> 7)) &&& 0xFF

/-- Nibble swap, from `_swap_nibbles` in videocrypt-ca.c:
`(a >> 4) | (a << 4)` truncated by the `uint8_t` return type. -/
def swapNibbles (a : Nat) : Nat := ((a >>> 4) ||| (a <<< 4)) &&& 0xFF

/-- Modelled from the spec: claim C4's `rotl_inverse`, the right-rotate-by-one
inverse of `rotateLeft`. The program itself contains no such function. -/
def rotateRightInv (x : Nat) : Nat := ((x >>> 1) ||| (x <<< 7)) &&& 0xFF

/-- Videocrypt message CRC, from `_crc` in videocrypt-ca.c: the bytes 0..30
are summed in a `uint8_t` accumulator and the two's complement
`~crc + 1` of the sum is returned. -/
def vcCrc (m : Nat → Nat) : Nat := add8 (not8 (∑ x ∈ Finset.range 31, m x)) 1

/-- The Videocrypt mode enumeration from videocrypt-ca.h. -/
inductive VCMode where
  | CW_STATIC | CW_DYNAMIC | EMM | FREE | JSTV
  | SKY02 | SKY03 | SKY04 | SKY05 | SKY06 | SKY07
  | SKY09 | SKY09_NANO | SKY10 | SKY10_PPV | SKY11 | SKY12
  | TAC1 | TAC2 | XTEA | MC | PPV
  deriving DecidableEq

/-- Numeric value of each enumerator (the C enum starts at `VC_CW_STATIC = 100`
and increments), used for order comparisons such as `m->mode < VC_SKY07`. -/
def VCMode.code : VCMode → Nat
  | .CW_STATIC => 100
  | .CW_DYNAMIC => 101
  | .EMM => 102
  | .FREE => 103
  | .JSTV => 104
  | .SKY02 => 105
  | .SKY03 => 106
  | .SKY04 => 107
  | .SKY05 => 108
  | .SKY06 => 109
  | .SKY07 => 110
  | .SKY09 => 111
  | .SKY09_NANO => 112
  | .SKY10 => 113
  | .SKY10_PPV => 114
  | .SKY11 => 115
  | .SKY12 => 116
  | .TAC1 => 117
  | .TAC2 => 118
  | .XTEA => 119
  | .MC => 120
  | .PPV => 121

/-- One step of the Videocrypt P07 kernel, from `_vc_kernel07` in
videocrypt-ca.c. The state is the 8-byte answer vector `out` plus the
index `oi`; `key` is the 32-byte window `m->key->key + m->key_offset`.
The source reads: `out[*oi] ^= in; b = key[out[*oi] >> 4];
c = key[(out[*oi] & 0x0F) + 16]; c = m->mode == VC_SKY02 ? c + b : ~(c + b);
c = m->mode == VC_SKY02 ? c + in : _rotate_left(c) + in; c = _rotate_left(c);
c = _swap_nibbles(c); *oi = (*oi + 1) & 7; out[*oi] ^= c;`. -/
def vcKernel07 (key : Nat → Nat) (mode : VCMode) (st : List Nat × Nat)
    (inp : Nat) : List Nat × Nat :=
  let out := st.1.set st.2 ((st.1.getD st.2 0) ^^^ inp)
  let o := out.getD st.2 0
  let b := key (o >>> 4)
  let c := key ((o &&& 0x0F) + 16)
  let c := if mode = VCMode.SKY02 then add8 c b else not8 (c + b)
  let c := if mode = VCMode.SKY02 then add8 c inp else add8 (rotateLeft c) inp
  let c := rotateLeft c
  let c := swapNibbles c
  let oi := (st.2 + 1) &&& 7
  (out.set oi ((out.getD oi 0) ^^^ c), oi)

/-- The P07 kernel step exactly as the spec's equation (claim C1) writes it:
the complement is applied when the mode is Sky 07 *or later* in the enum
order, and plain `c + b` is used for all earlier modes. -/
def vcKernel07SpecC1 (key : Nat → Nat) (mode : VCMode) (st : List Nat × Nat)
    (inp : Nat) : List Nat × Nat :=
  let out := st.1.set st.2 ((st.1.getD st.2 0) ^^^ inp)
  let o := out.getD st.2 0
  let b := key (o >>> 4)
  let c := key ((o &&& 0x0F) + 16)
  let c := if VCMode.SKY07.code ≤ mode.code then not8 (c + b) else add8 c b
  let c := if mode = VCMode.SKY02 then add8 c inp else add8 (rotateLeft c) inp
  let c := rotateLeft c
  let c := swapNibbles c
  let oi := (st.2 + 1) &&& 7
  (out.set oi ((out.getD oi 0) ^^^ c), oi)

/-- The P07 kernel step as the amended claim C1 states it: `c + b` is used
only in Sky 02 mode, and the complement `~(c + b)` in every other mode. -/
def vcKernel07SpecAmended (key : Nat → Nat) (mode : VCMode)
    (st : List Nat × Nat) (inp : Nat) : List Nat × Nat :=
  let out := st.1.set st.2 ((st.1.getD st.2 0) ^^^ inp)
  let o := out.getD st.2 0
  let b := key (o >>> 4)
  let c := key ((o &&& 0x0F) + 16)
  let c := if mode = VCMode.SKY02 then add8 c b else not8 (c + b)
  let c := if mode = VCMode.SKY02 then add8 c inp else add8 (rotateLeft c) inp
  let c := rotateLeft c
  let c := swapNibbles c
  let oi := (st.2 + 1) &&& 7
  (out.set oi ((out.getD oi 0) ^^^ c), oi)

/-- C4: for every byte `x`,
`rotl (swap_nibbles (swap_nibbles (rotl_inverse x))) = x`, where `rotl`
is the program's `_rotate_left`, `swap_nibbles` is `_swap_nibbles`, and
`rotl_inverse` is the right-rotate-by-one inverse of `rotl`. -/
theorem c4_rotl_swap_roundtrip (x : Nat) (h : x < 256) :
    rotateLeft (swapNibbles (swapNibbles (rotateRightInv x))) = x := by
  revert x
  decide

/-- Witness for C4 at the concrete byte `0xAB`. -/
theorem c4_rotl_swap_roundtrip_witness :
    rotateLeft (swapNibbles (swapNibbles (rotateRightInv 0xAB))) = 0xAB :=
  c4_rotl_swap_roundtrip 0xAB (by decide)

/-- Counterexample for C1: in mode Sky 03 — earlier than Sky 07 and not
Sky 02 — the source kernel (`~(c+b)`) and the spec's equation (`c+b` for
modes before Sky 07) disagree already on the all-zero state, zero key and
input byte 0. -/
theorem c1_kernel07_spec_counterexample :
    vcKernel07 (fun _ => 0) VCMode.SKY03 ([0, 0, 0, 0, 0, 0, 0, 0], 0) 0 ≠
    vcKernel07SpecC1 (fun _ => 0) VCMode.SKY03 ([0, 0, 0, 0, 0, 0, 0, 0], 0) 0 := by
  decide

/-- Amended C1: for every key, mode, state and input byte the source kernel
`_vc_kernel07` follows the spec's equation with the condition corrected to
"`c = c + b` in Sky 02 mode, `c = ~(c + b)` in every other mode"; the rest
of the update (`c = c + in` for Sky 02, `c = rotl(c) + in` otherwise;
`out[(oi+1)&7] ^= swap_nibbles(rotl(c))`; `oi = (oi+1)&7`) is unchanged. -/
theorem c1_kernel07_follows_amended_equation (key : Nat → Nat) (mode : VCMode)
    (st : List Nat × Nat) (inp : Nat) :
    vcKernel07 key mode st inp = vcKernel07SpecAmended key mode st inp := rfl

/-- Control-word assembly from `_rev_cw` in videocrypt-ca.c: the high nibble
of answer byte 7 is masked (`in[7] &= 0x0F`) and the eight bytes are packed
little-endian (`cw |= in[i] << (i * 8)`). -/
def revCw (l : List Nat) : Nat :=
  (l.getD 0 0) ||| ((l.getD 1 0) <<< 8) ||| ((l.getD 2 0) <<< 16) |||
  ((l.getD 3 0) <<< 24) ||| ((l.getD 4 0) <<< 32) ||| ((l.getD 5 0) <<< 40) |||
  ((l.getD 6 0) <<< 48) ||| (((l.getD 7 0) &&& 0x0F) <<< 56)

/-- Signature phase of `_vc_process_p07_msg` (bytes 27..30). Modes before
Sky 07 run the kernel three times per output byte with input 0; Sky 07 and
later modes run it twice per byte with the previous output byte fed back,
and skip the answer index forward once more. -/
def vcP07Signature (key : Nat → Nat) (mode : VCMode) (msg : Nat → Nat)
    (st : List Nat × Nat) : (Nat → Nat) × (List Nat × Nat) :=
  if mode.code < VCMode.SKY07.code then
    ([27, 28, 29, 30] : List Nat).foldl
      (fun (p : (Nat → Nat) × (List Nat × Nat)) i =>
        let st := vcKernel07 key mode
          (vcKernel07 key mode (vcKernel07 key mode p.2 0) 0) 0
        (Function.update p.1 i (st.1.getD st.2 0), st))
      (msg, st)
  else
    let r := ([27, 28, 29, 30] : List Nat).foldl
      (fun (p : ((Nat → Nat) × (List Nat × Nat)) × Nat) i =>
        let st := vcKernel07 key mode (vcKernel07 key mode p.1.2 p.2) p.2
        let b := st.1.getD st.2 0
        ((Function.update p.1.1 i b, (st.1, (st.2 + 1) &&& 7)), b))
      ((msg, st), 0)
    r.1

/-- Full `_vc_process_p07_msg`: the kernel is folded over message bytes
0..26, the signature fills bytes 27..30, byte 31 is set to the CRC, the
kernel is iterated 64 more times on the CRC byte, and the answer vector is
packed into the control word by `_rev_cw`. -/
def vcProcessP07Msg (key : Nat → Nat) (mode : VCMode) (msg : Nat → Nat) :
    (Nat → Nat) × Nat :=
  let st1 := ((List.range 27).map msg).foldl (vcKernel07 key mode)
    (List.replicate 8 0, 0)
  let p := vcP07Signature key mode msg st1
  let m2 := Function.update p.1 31 (vcCrc p.1)
  let st2 := (List.replicate 64 (m2 31)).foldl (vcKernel07 key mode) p.2
  (m2, revCw st2.1)

/-- The CRC only reads bytes 0..30, so rewriting byte 31 leaves it fixed. -/
theorem vcCrc_update_31 (m : Nat → Nat) (v : Nat) :
    vcCrc (Function.update m 31 v) = vcCrc m := by
  have hs : (∑ x ∈ Finset.range 31, Function.update m 31 v x) =
      ∑ x ∈ Finset.range 31, m x := by
    refine Finset.sum_congr rfl fun x hx => ?_
    have hx31 : x ≠ 31 := by
      have := Finset.mem_range.mp hx
      omega
    exact Function.update_noteq hx31 v m
  unfold vcCrc
  rw [hs]

/-- Updating byte 31 of a message to its CRC produces a message whose byte 31
is the CRC of the updated message itself. -/
theorem update_crc_self (m : Nat → Nat) :
    (Function.update m 31 (vcCrc m)) 31 =
      vcCrc (Function.update m 31 (vcCrc m)) := by
  rw [vcCrc_update_31, Function.update_same]

/-- C2: for every message processed by `_vc_process_p07_msg`, byte 31 of the
resulting message equals the two's complement `~sum + 1` of the sum of its
bytes 0..30 taken modulo 256; and for any message whose bytes 0..30 sum to
`0x17` modulo 256 that CRC byte is `0xE9`. -/
theorem c2_crc_byte31 :
    (∀ (key : Nat → Nat) (mode : VCMode) (msg : Nat → Nat),
      (vcProcessP07Msg key mode msg).1 31 =
        vcCrc (vcProcessP07Msg key mode msg).1) ∧
    (∀ m : Nat → Nat, (∑ x ∈ Finset.range 31, m x) % 256 = 0x17 →
      vcCrc m = 0xE9) := by
  constructor
  · intro key mode msg
    exact update_crc_self
      (vcP07Signature key mode msg
        (((List.range 27).map msg).foldl (vcKernel07 key mode)
          (List.replicate 8 0, 0))).1
  · intro m hm
    unfold vcCrc not8 add8
    rw [hm]

/-- Witness for C2 at a concrete message whose bytes 0..30 sum to `0x17`. -/
theorem c2_crc_byte31_witness :
    (∑ x ∈ Finset.range 31, (fun x => if x = 5 then 0x17 else 0 : Nat → Nat) x) % 256 = 0x17 ∧
    vcCrc (fun x => if x = 5 then 0x17 else 0) = 0xE9 :=
  ⟨by decide, c2_crc_byte31.2 (fun x => if x = 5 then 0x17 else 0) (by decide)⟩

/-- Reduction modulo `2^32` (C `uint32_t` truncation). -/
def u32 (x : Nat) : Nat := x % 4294967296

/-- The hard-coded 128-bit XTEA key `xtea_key` from videocrypt-ca.c. -/
def xteaKeyTab : List Nat := [0x00112233, 0x44556677, 0x8899AABB, 0xCCDDEEFF]

/-- One iteration of the XTEA loop in `vc_seed_xtea`, on `uint32_t` state
`(v0, v1, sum)`:
`v0 += (((v1 << 4) ^ (v1 >> 5)) + v1) ^ (sum + xtea_key[sum & 3]);
sum += delta;
v1 += (((v0 << 4) ^ (v0 >> 5)) + v0) ^ (sum + xtea_key[(sum >> 11) & 3]);`
with `delta = 0x9E3779B9`. -/
def xteaRound (st : Nat × Nat × Nat) : Nat × Nat × Nat :=
  let v0 := st.1
  let v1 := st.2.1
  let sum := st.2.2
  let v0 := u32 (v0 + ((u32 ((u32 (v1 <<< 4) ^^^ (v1 >>> 5)) + v1)) ^^^
    (u32 (sum + xteaKeyTab.getD (sum &&& 3) 0))))
  let sum := u32 (sum + 0x9E3779B9)
  let v1 := u32 (v1 + ((u32 ((u32 (v0 <<< 4) ^^^ (v0 >>> 5)) + v0)) ^^^
    (u32 (sum + xteaKeyTab.getD ((sum >>> 11) &&& 3) 0))))
  (v0, v1, sum)

/-- The control word computed by `vc_seed_xtea`: `v1` is read little-endian
from message bytes 11..14 and `v0` from bytes 15..18 (the x86 `memcpy`
byte order), 32 XTEA rounds are run, and the result
`((uint64_t) v0 << 32 | v1)` is masked to its low 60 bits. -/
def vcSeedXteaCw (m : Nat → Nat) : Nat :=
  let v1 := m 11 ||| (m 12 <<< 8) ||| (m 13 <<< 16) ||| (m 14 <<< 24)
  let v0 := m 15 ||| (m 16 <<< 8) ||| (m 17 <<< 16) ||| (m 18 <<< 24)
  let r := xteaRound^[32] (v0, v1, 0)
  ((r.1 <<< 32) ||| r.2.1) &&& 0x0FFFFFFFFFFFFFFF

/-- The message of the spec's XTEA scenario: bytes 11..18 hold 0x00..0x07. -/
def xteaTestMsg : Nat → Nat := fun i => if 11 ≤ i ∧ i ≤ 18 then i - 11 else 0

/-- Counterexample for C3: on the message with bytes 11..18 = 0x00..0x07 the
codeword computed by `vc_seed_xtea` is not the spec's claimed vector
`0x07EE0AF3E9B5D6F9`. -/
theorem c3_xtea_vector_counterexample :
    vcSeedXteaCw xteaTestMsg ≠ 0x07EE0AF3E9B5D6F9 := by decide

/-- Amended C3: with the hard-coded key
`{0x00112233, 0x44556677, 0x8899AABB, 0xCCDDEEFF}` and message bytes
11..18 = 0x00..0x07 read little-endian, 32 XTEA rounds produce a codeword
whose low 60 bits are `0x00889E2A6F4241C3`. -/
theorem c3_xtea_vector_amended :
    vcSeedXteaCw xteaTestMsg = 0x00889E2A6F4241C3 := by decide

/-- Packet-queue capacity `MAX_QUEUE_SIZE` (15 MiB), from the ffmpeg
input module. -/
def MAX_QUEUE_SIZE : Nat := 15 * 1024 * 1024

/-- State of a `_packet_queue_t`: the queued packets (each recorded by its
charged byte count `pkt->size + sizeof(_packet_queue_item_t)`), the running
`size` field, and the `eof` / `abort` flags. -/
structure PQState where
  pkts : List Nat
  size : Nat
  eof : Bool
  abort : Bool
  deriving DecidableEq

/-- Initial queue state from `_packet_queue_init`. -/
def pqInit : PQState := ⟨[], 0, false, false⟩

/-- Transitions of a packet queue, from `_packet_queue_write`,
`_packet_queue_read` and `_packet_queue_abort`. A write enqueues only when
the queue is not aborted and the charged bytes fit under `MAX_QUEUE_SIZE`
(otherwise the writer stays blocked in the capacity loop, or returns `-2`
without enqueuing on abort); a write of the NULL sentinel sets `eof`; a
read dequeues the head packet and subtracts its charged bytes. -/
inductive PQStep : PQState → PQState → Prop where
  | write (q : PQState) (c : Nat) (hab : q.abort = false)
      (hsz : q.size + c ≤ MAX_QUEUE_SIZE) :
      PQStep q ⟨q.pkts ++ [c], q.size + c, q.eof, q.abort⟩
  | writeEof (q : PQState) : PQStep q ⟨q.pkts, q.size, true, q.abort⟩
  | read (q : PQState) (c : Nat) (cs : List Nat) (h : q.pkts = c :: cs) :
      PQStep q ⟨cs, q.size - c, q.eof, q.abort⟩
  | abort (q : PQState) : PQStep q ⟨q.pkts, q.size, q.eof, true⟩

/-- Queue states reachable from the freshly initialised queue. -/
def PQReachable (q : PQState) : Prop := Relation.ReflTransGen PQStep pqInit q

/-- State of a `_frame_dbuffer_t`: exactly two frame slots, the `ready` and
`repeat` flags and the `abort` flag. -/
structure DBState (α : Type) where
  frame0 : α
  frame1 : α
  ready : Bool
  rept : Bool
  abort : Bool
  deriving DecidableEq

/-- The frames held by a double-buffer: its two slots. -/
def DBState.slots {α : Type} (d : DBState α) : List α := [d.frame0, d.frame1]

/-- C5: in every reachable packet-queue state the total charged bytes stay
at or below the 15 MiB bound `MAX_QUEUE_SIZE` (a write whose enqueue would
exceed the bound is not enabled until room is available), and every frame
double-buffer holds at most two frames. -/
theorem c5_queue_bounds :
    (∀ q : PQState, PQReachable q → q.size ≤ MAX_QUEUE_SIZE) ∧
    (∀ d : DBState Nat, d.slots.length ≤ 2) := by
  constructor
  · intro q hq
    induction hq with
    | refl => exact Nat.zero_le _
    | tail _ step ih =>
      cases step with
      | write c hab hsz => exact hsz
      | writeEof => exact ih
      | read c cs h => exact le_trans (Nat.sub_le _ _) ih
      | abort => exact ih
  · intro d
    exact le_refl 2

/-- Witness for C5: a queue state reached by a single 100-byte write
satisfies the bound, as does a concrete double-buffer. -/
theorem c5_queue_bounds_witness :
    (⟨[100], 100, false, false⟩ : PQState).size ≤ MAX_QUEUE_SIZE ∧
    (⟨7, 9, false, false, false⟩ : DBState Nat).slots.length ≤ 2 :=
  ⟨c5_queue_bounds.1 ⟨[100], 100, false, false⟩
      (Relation.ReflTransGen.single
        (PQStep.write pqInit 100 rfl (by decide))),
    c5_queue_bounds.2 ⟨7, 9, false, false, false⟩⟩

/-- Possible behaviours of one pass through the wait loop of
`_packet_queue_read`. -/
inductive ReadOutcome where
  | retNoPacket
  | retErrAbort
  | retErrEof
  | wait
  | retPacket
  deriving DecidableEq

/-- One observation of `_packet_queue_read`'s loop, as a function of the
queue state and the shared `input_stall` flag: while the queue is empty the
reader first returns 0 (without a packet) if `input_stall` is set, then
returns `-2` on abort or `-1` on EOF, and otherwise waits on the condvar;
with a packet queued it dequeues and returns it. -/
def packetQueueReadObs (q : PQState) (inputStall : Bool) : ReadOutcome :=
  if q.pkts.length = 0 then
    if inputStall then .retNoPacket
    else if q.abort then .retErrAbort
    else if q.eof then .retErrEof
    else .wait
  else .retPacket

/-- Counterexample for C6: with the queue empty, not at EOF and not aborted
but the `input_stall` flag set, `_packet_queue_read` returns 0 to the caller
immediately — without a packet — instead of blocking. -/
theorem c6_read_blocks_counterexample :
    packetQueueReadObs ⟨[], 0, false, false⟩ true ≠ ReadOutcome.wait := by
  decide

/-- Amended C6: a read from a packet queue that is empty, not at EOF and not
aborted blocks (waits on the condition variable) provided the shared
`input_stall` flag is clear; when `input_stall` is set, an empty read
returns 0 to the caller without a packet. -/
theorem c6_read_blocks_amended (q : PQState) (stall : Bool)
    (hempty : q.pkts = []) (heof : q.eof = false) (hab : q.abort = false)
    (hstall : stall = false) :
    packetQueueReadObs q stall = ReadOutcome.wait := by
  simp [packetQueueReadObs, hempty, heof, hab, hstall]

/-- Witness for amended C6 at the freshly initialised queue. -/
theorem c6_read_blocks_amended_witness :
    packetQueueReadObs pqInit false = ReadOutcome.wait :=
  c6_read_blocks_amended pqInit false rfl rfl rfl rfl

/-- Possible behaviours of one pass through the capacity loop of
`_packet_queue_write` for a non-NULL packet. -/
inductive WriteOutcome where
  | retErrAbort
  | wait
  | enqueue
  deriving DecidableEq

/-- One observation of `_packet_queue_write`'s capacity loop for a packet
whose charged byte count is `cost`: the writer waits while the queue is not
aborted and the packet does not fit; once the loop exits it returns `-2` if
abort was raised, and otherwise enqueues. -/
def packetQueueWriteObs (q : PQState) (cost : Nat) : WriteOutcome :=
  if q.abort = false ∧ MAX_QUEUE_SIZE < q.size + cost then .wait
  else if q.abort then .retErrAbort
  else .enqueue

/-- Possible behaviours of one pass through `_frame_dbuffer_flip`'s wait
loop: wait, return NULL on abort, or return a frame. -/
inductive FlipOutcome (α : Type) where
  | wait
  | noFrame
  | frame (a : α)
  deriving DecidableEq

/-- One observation of `_frame_dbuffer_flip`: the consumer waits while
neither `ready` nor `abort` is set; it returns NULL if `abort` is set;
otherwise it swaps the slots unless `repeat` is set and returns the
front frame (`frame[0]` after the conditional swap). -/
def frameDbufferFlipObs {α : Type} (d : DBState α) : FlipOutcome α :=
  if d.ready = false ∧ d.abort = false then .wait
  else if d.abort then .noFrame
  else .frame (if d.rept then d.frame0 else d.frame1)

/-- Raising the abort flag on a packet queue (`_packet_queue_abort`). -/
def pqSetAbort (q : PQState) : PQState := ⟨q.pkts, q.size, q.eof, true⟩

/-- Raising the abort flag on a double-buffer (`_frame_dbuffer_abort`). -/
def dbSetAbort {α : Type} (d : DBState α) : DBState α :=
  ⟨d.frame0, d.frame1, d.ready, d.rept, true⟩

/-- C9: once the abort flag is raised, a waiter that was blocked re-examines
the state and returns a distinguished error rather than data: a blocked
`_packet_queue_read` returns `-2`, a blocked `_packet_queue_write` returns
`-2`, and a blocked `_frame_dbuffer_flip` returns NULL (no frame). -/
theorem c9_abort_wakes_waiters :
    (∀ (q : PQState) (stall : Bool),
      packetQueueReadObs q stall = ReadOutcome.wait →
      packetQueueReadObs (pqSetAbort q) stall = ReadOutcome.retErrAbort) ∧
    (∀ (q : PQState) (cost : Nat),
      packetQueueWriteObs q cost = WriteOutcome.wait →
      packetQueueWriteObs (pqSetAbort q) cost = WriteOutcome.retErrAbort) ∧
    (∀ d : DBState Nat,
      frameDbufferFlipObs d = FlipOutcome.wait →
      frameDbufferFlipObs (dbSetAbort d) = FlipOutcome.noFrame) := by
  refine ⟨fun q stall hw => ?_, fun q cost hw => ?_, fun d hw => ?_⟩
  · unfold packetQueueReadObs at hw ⊢
    by_cases hlen : q.pkts.length = 0
    · simp only [pqSetAbort, hlen, if_true, if_pos rfl]
      by_cases hstall : stall
      · simp [hlen, hstall] at hw
      · simp [hstall]
    · simp [hlen] at hw
  · unfold packetQueueWriteObs at hw ⊢
    by_cases hfit : MAX_QUEUE_SIZE < q.size + cost
    · simp [pqSetAbort]
    · by_cases hab : q.abort <;> simp [hab, hfit] at hw
  · unfold frameDbufferFlipObs at hw ⊢
    by_cases hr : d.ready = false
    · simp [dbSetAbort]
    · by_cases hab : d.abort <;> simp [hr, hab] at hw

/-- Witness for C9: blocked read, write and flip at concrete states all turn
into the distinguished errors after abort. -/
theorem c9_abort_wakes_waiters_witness :
    (packetQueueReadObs pqInit false = ReadOutcome.wait ∧
      packetQueueReadObs (pqSetAbort pqInit) false = ReadOutcome.retErrAbort) ∧
    (packetQueueWriteObs pqInit (MAX_QUEUE_SIZE + 1) = WriteOutcome.wait ∧
      packetQueueWriteObs (pqSetAbort pqInit) (MAX_QUEUE_SIZE + 1) =
        WriteOutcome.retErrAbort) ∧
    (frameDbufferFlipObs (⟨3, 4, false, false, false⟩ : DBState Nat) =
        FlipOutcome.wait ∧
      frameDbufferFlipObs (dbSetAbort (⟨3, 4, false, false, false⟩ : DBState Nat)) =
        FlipOutcome.noFrame) :=
  ⟨⟨by decide, c9_abort_wakes_waiters.1 pqInit false (by decide)⟩,
    ⟨by decide, c9_abort_wakes_waiters.2.1 pqInit (MAX_QUEUE_SIZE + 1) (by decide)⟩,
    ⟨by decide, c9_abort_wakes_waiters.2.2 ⟨3, 4, false, false, false⟩ (by decide)⟩⟩

/-- The repeat loop of `_video_scaler_thread`:
`while(pts > 0) { _frame_dbuffer_ready(&s->out_video_buffer, 1);
s->video_start_time++; pts--; }` iterated a given number of times, counting
the emitted `ready=repeat` ticks and advancing `start_time` once per tick. -/
def emitRepeats : Nat → Int → Nat × Int
  | 0, start => (0, start)
  | n + 1, start =>
    let r := emitRepeats n (start + 1)
    (r.1 + 1, r.2)

/-- Result of the time-align policy for one decoded frame with a known
timestamp: either the frame is dropped, or it is stored after a number of
`ready=repeat` ticks with the advanced `start_time`. -/
inductive TimeAlignResult where
  | drop
  | store (repeats : Nat) (newStart : Int)
  deriving DecidableEq

/-- Time-align step of `_video_scaler_thread` for a frame whose rescaled
timestamp (the result of `av_rescale_q(pts, stream_tb, mode_tb)`) is
`rescaled`: the code computes `pts -= s->video_start_time`, skips the frame
when `pts < 0`, and otherwise runs the repeat loop before storing the new
frame into the output double-buffer. -/
def videoScalerTimeAlign (rescaled start : Int) : TimeAlignResult :=
  let pts := rescaled - start
  if pts < 0 then .drop
  else
    let r := emitRepeats pts.toNat start
    .store r.1 r.2

/-- The repeat loop emits exactly its count and advances `start` by it. -/
theorem emitRepeats_eq (n : Nat) (start : Int) :
    emitRepeats n start = (n, start + n) := by
  induction n generalizing start with
  | zero => simp [emitRepeats]
  | succ k ih =>
    simp [emitRepeats, ih (start + 1)]
    omega

/-- C7: for every decoded frame with a known timestamp, with
`pts' = rescaled − start_time`: if `pts' < 0` the frame is dropped and not
emitted; if `pts' > 0` the scaler emits exactly `pts'` `ready=repeat` ticks,
advancing `start_time` once per tick to `start_time + pts'`, before storing
the new frame. -/
theorem c7_time_align (rescaled start : Int) :
    (rescaled - start < 0 → videoScalerTimeAlign rescaled start = .drop) ∧
    (0 < rescaled - start →
      videoScalerTimeAlign rescaled start =
        .store (rescaled - start).toNat (start + (rescaled - start))) := by
  constructor
  · intro h
    unfold videoScalerTimeAlign
    simp [h]
  · intro h
    unfold videoScalerTimeAlign
    rw [if_neg (by omega)]
    rw [emitRepeats_eq]
    have h2 : (((rescaled - start).toNat : Int)) = rescaled - start := by omega
    simp [h2]

/-- Witness for C7: a frame three ticks in the future is stored after three
repeat ticks, and a frame in the past is dropped. -/
theorem c7_time_align_witness :
    ((5 : Int) - 2 < 0 ∨ (0 : Int) < 5 - 2) ∧
    videoScalerTimeAlign 5 2 = .store 3 5 ∧
    videoScalerTimeAlign 0 1 = .drop :=
  ⟨Or.inr (by decide),
    (c7_time_align 5 2).2 (by decide),
    (c7_time_align 0 1).1 (by decide)⟩

/-- Ceiling division used to model FFmpeg's `av_rescale_q_rnd` with
`AV_ROUND_UP` on non-negative operands. -/
def ceilDivN (a b : Nat) : Nat := (a + b - 1) / b

/-- The `out_frame_size` computation of `av_ffmpeg_open`:
`av_rescale_q_rnd(frame_size, {sr.num, sr.den}, {codec_rate, 1},
AV_ROUND_UP)`, i.e. the ceiling of `frame_size * sr.num / (sr.den *
codec_rate)`, falling back to `sr.num / sr.den` (one second of output
samples) when the result is not positive. -/
def outFrameSize (frameSize srNum srDen codecRate : Nat) : Nat :=
  let r := ceilDivN (frameSize * srNum) (srDen * codecRate)
  if r = 0 then srNum / srDen else r

/-- Modelled from the spec: the claim C8 formula
`out_frame_size = ceil(mode_sample_rate / mode_frame_rate)`. -/
def outFrameSizeSpecC8 (srNum srDen frNum frDen : Nat) : Nat :=
  ceilDivN (srNum * frDen) (srDen * frNum)

/-- Counterexample for C8: for a codec frame of 1024 samples at 44100 Hz
with hacktv's 32000 Hz output and a 25 fps mode, the code computes
`out_frame_size = ceil(1024·32000/44100) = 744`, not
`ceil(32000/25) = 1280` as the claim states. -/
theorem c8_out_frame_size_counterexample :
    outFrameSize 1024 32000 1 44100 ≠ outFrameSizeSpecC8 32000 1 25 1 := by
  decide

/-- Amended C8: per invocation the resampler requests `out_frame_size`
output samples, where `out_frame_size` is the ceiling of
`codec_frame_size · mode_sample_rate / codec_sample_rate` — not a value
derived from the mode frame rate — with one second of samples as fallback
when that ceiling is not positive; in particular it is always positive. -/
theorem c8_out_frame_size_amended (frameSize srNum srDen codecRate : Nat)
    (hfs : 0 < frameSize) (hn : 0 < srNum) (hd : 0 < srDen)
    (hc : 0 < codecRate) :
    outFrameSize frameSize srNum srDen codecRate =
      (frameSize * srNum + (srDen * codecRate) - 1) / (srDen * codecRate) ∧
    0 < outFrameSize frameSize srNum srDen codecRate := by
  have hb : 0 < srDen * codecRate := Nat.mul_pos hd hc
  have ha : 0 < frameSize * srNum := Nat.mul_pos hfs hn
  have hr : 0 < ceilDivN (frameSize * srNum) (srDen * codecRate) := by
    unfold ceilDivN
    apply Nat.div_pos _ hb
    omega
  constructor
  · unfold outFrameSize
    simp [Nat.pos_iff_ne_zero.mp hr]
    rfl
  · unfold outFrameSize
    simp [Nat.pos_iff_ne_zero.mp hr]
    exact hr

/-- Witness for amended C8 at the concrete 1024-sample 44100 Hz codec frame
and 32000 Hz output: `out_frame_size = 744 > 0`. -/
theorem c8_out_frame_size_amended_witness :
    outFrameSize 1024 32000 1 44100 = (1024 * 32000 + (1 * 44100) - 1) / (1 * 44100) ∧
    0 < outFrameSize 1024 32000 1 44100 :=
  c8_out_frame_size_amended 1024 32000 1 44100
    (by decide) (by decide) (by decide) (by decide)

/-- Indexing a byte-bounded list stays below 256 (default 0). -/
theorem byteBound_getD {l : List Nat} (h : ∀ b ∈ l, b < 256) (i : Nat) :
    l.getD i 0 < 256 := by
  rcases Nat.lt_or_ge i l.length with hi | hi
  · rw [List.getD_eq_getElem l 0 hi]
    exact h _ (List.getElem_mem hi)
  · rw [List.getD_eq_default l 0 hi]
    decide

/-- Writing a byte into a byte-bounded list keeps it byte-bounded. -/
theorem byteBound_set {l : List Nat} {i v : Nat} (h : ∀ b ∈ l, b < 256)
    (hv : v < 256) : ∀ b ∈ l.set i v, b < 256 := by
  intro b hb
  rcases List.mem_or_eq_of_mem_set hb with h1 | h2
  · exact h b h1
  · omega

/-- The xor of two bytes is a byte. -/
theorem xor8_lt {x y : Nat} (hx : x < 256) (hy : y < 256) : x ^^^ y < 256 :=
  Nat.xor_lt_two_pow (n := 8) hx hy

/-- Byte addition stays below 256. -/
theorem add8_lt (x y : Nat) : add8 x y < 256 := Nat.mod_lt _ (by decide)

/-- Truncated byte subtraction stays below 256. -/
theorem sub8_lt (x y : Nat) : sub8 x y < 256 := Nat.mod_lt _ (by decide)

/-- The rotate-left result is a byte (it is masked with `0xFF`). -/
theorem rotateLeft_lt (x : Nat) : rotateLeft x < 256 :=
  Nat.lt_succ_of_le (Nat.and_le_right)

/-- The nibble-swap result is a byte (it is masked with `0xFF`). -/
theorem swapNibbles_lt (x : Nat) : swapNibbles x < 256 :=
  Nat.lt_succ_of_le (Nat.and_le_right)

/-- A predicate preserved by each applied step is preserved by `foldl`. -/
theorem foldl_preserve {α β : Type} {P : α → Prop} {f : α → β → α} :
    ∀ (l : List β) (a0 : α), (∀ a, ∀ b ∈ l, P a → P (f a b)) → P a0 →
      P (l.foldl f a0)
  | [], _, _, h => h
  | x :: xs, a0, hf, h =>
    foldl_preserve xs (f a0 x)
      (fun a b hb ha => hf a b (List.mem_cons_of_mem x hb) ha)
      (hf a0 x (List.mem_cons_self x xs) h)

/-- A value below `2^n` shifted left by `k` bits stays below `2^60`
whenever `n + k ≤ 60`. -/
theorem pow2Shift_lt {x n : Nat} (hx : x < 2 ^ n) {k : Nat}
    (hk : n + k ≤ 60) : x <<< k < 2 ^ 60 := by
  have h1 : x <<< k < 2 ^ (n + k) := Nat.shiftLeft_lt hx
  exact lt_of_lt_of_le h1 (Nat.pow_le_pow_right (by decide) hk)

/-- A byte shifted left by up to 52 bits stays below `2^60`. -/
theorem byteShift_lt {x : Nat} (hx : x < 256) {k : Nat} (hk : 8 + k ≤ 60) :
    x <<< k < 2 ^ 60 := pow2Shift_lt (n := 8) hx hk

/-- The or of two values below `2^60` stays below `2^60`. -/
theorem or60_lt {x y : Nat} (hx : x < 2 ^ 60) (hy : y < 2 ^ 60) :
    x ||| y < 2 ^ 60 := Nat.or_lt_two_pow hx hy

/-- The control word assembled by `_rev_cw` from byte-bounded answers is
below `2^60`: the high nibble of the top byte is masked off. -/
theorem revCw_lt {l : List Nat} (h : ∀ b ∈ l, b < 256) : revCw l < 2 ^ 60 := by
  have h256 : (256 : Nat) ≤ 2 ^ 60 := by decide
  have h0 : l.getD 0 0 < 2 ^ 60 := lt_of_lt_of_le (byteBound_getD h 0) h256
  have h7 : (l.getD 7 0) &&& 0x0F < 2 ^ 4 :=
    Nat.lt_succ_of_le (le_trans Nat.and_le_right (by decide))
  exact or60_lt (or60_lt (or60_lt (or60_lt (or60_lt (or60_lt (or60_lt h0
    (byteShift_lt (byteBound_getD h 1) (by decide)))
    (byteShift_lt (byteBound_getD h 2) (by decide)))
    (byteShift_lt (byteBound_getD h 3) (by decide)))
    (byteShift_lt (byteBound_getD h 4) (by decide)))
    (byteShift_lt (byteBound_getD h 5) (by decide)))
    (byteShift_lt (byteBound_getD h 6) (by decide)))
    (pow2Shift_lt h7 (by decide))

/-- The P07 kernel step keeps the 8 answer bytes byte-bounded. -/
theorem vcKernel07_preserves (key : Nat → Nat) (mode : VCMode)
    (st : List Nat × Nat) (inp : Nat) (hout : ∀ b ∈ st.1, b < 256)
    (hinp : inp < 256) : ∀ b ∈ (vcKernel07 key mode st inp).1, b < 256 := by
  have h1 : ∀ b ∈ st.1.set st.2 ((st.1.getD st.2 0) ^^^ inp), b < 256 :=
    byteBound_set hout (xor8_lt (byteBound_getD hout st.2) hinp)
  exact byteBound_set h1 (xor8_lt (byteBound_getD h1 _) (swapNibbles_lt _))

/-- The signature phase keeps the 8 answer bytes byte-bounded. -/
theorem vcP07Signature_preserves (key : Nat → Nat) (mode : VCMode)
    (msg : Nat → Nat) (st : List Nat × Nat) (hst : ∀ b ∈ st.1, b < 256) :
    ∀ b ∈ (vcP07Signature key mode msg st).2.1, b < 256 := by
  unfold vcP07Signature
  by_cases hm : mode.code < VCMode.SKY07.code
  · rw [if_pos hm]
    exact foldl_preserve
      (P := fun p : (Nat → Nat) × (List Nat × Nat) => ∀ b ∈ p.2.1, b < 256)
      _ _
      (fun p i _ hp =>
        vcKernel07_preserves key mode _ 0
          (vcKernel07_preserves key mode _ 0
            (vcKernel07_preserves key mode _ 0 hp (by decide)) (by decide))
          (by decide))
      hst
  · rw [if_neg hm]
    have h := foldl_preserve
      (P := fun p : ((Nat → Nat) × (List Nat × Nat)) × Nat =>
        (∀ b ∈ p.1.2.1, b < 256) ∧ p.2 < 256)
      (f := fun (p : ((Nat → Nat) × (List Nat × Nat)) × Nat) i =>
        let st := vcKernel07 key mode (vcKernel07 key mode p.1.2 p.2) p.2
        let b := st.1.getD st.2 0
        ((Function.update p.1.1 i b, (st.1, (st.2 + 1) &&& 7)), b))
      [27, 28, 29, 30] ((msg, st), 0)
      (fun p i _ hp => by
        have hstep : ∀ b ∈ (vcKernel07 key mode
            (vcKernel07 key mode p.1.2 p.2) p.2).1, b < 256 :=
          vcKernel07_preserves key mode _ p.2
            (vcKernel07_preserves key mode _ p.2 hp.1 hp.2) hp.2
        exact ⟨hstep, byteBound_getD hstep _⟩)
      ⟨hst, show (0 : Nat) < 256 by decide⟩
    exact h.1

/-- The control word produced by `_vc_process_p07_msg` on a byte-valued
message stays below `2^60`. -/
theorem vcProcessP07Msg_cw_lt (key : Nat → Nat) (mode : VCMode)
    (msg : Nat → Nat) (hmsg : ∀ i, msg i < 256) :
    (vcProcessP07Msg key mode msg).2 < 2 ^ 60 := by
  have hst1 : ∀ b ∈ (((List.range 27).map msg).foldl (vcKernel07 key mode)
      (List.replicate 8 0, 0)).1, b < 256 := by
    refine foldl_preserve
      (P := fun st : List Nat × Nat => ∀ b ∈ st.1, b < 256)
      _ _ (fun a b hb ha => ?_) (fun b hb => ?_)
    · rcases List.mem_map.mp hb with ⟨i, _, rfl⟩
      exact vcKernel07_preserves key mode a (msg i) ha (hmsg i)
    · rw [List.eq_of_mem_replicate hb]
      decide
  have hsig := vcP07Signature_preserves key mode msg _ hst1
  have hfinal : ∀ b ∈ ((List.replicate 64
      ((Function.update (vcP07Signature key mode msg
        (((List.range 27).map msg).foldl (vcKernel07 key mode)
          (List.replicate 8 0, 0))).1 31
        (vcCrc (vcP07Signature key mode msg
          (((List.range 27).map msg).foldl (vcKernel07 key mode)
            (List.replicate 8 0, 0))).1)) 31)).foldl (vcKernel07 key mode)
      (vcP07Signature key mode msg
        (((List.range 27).map msg).foldl (vcKernel07 key mode)
          (List.replicate 8 0, 0))).2).1, b < 256 := by
    refine foldl_preserve
      (P := fun st : List Nat × Nat => ∀ b ∈ st.1, b < 256)
      _ _ (fun a b hb ha => ?_) hsig
    rw [List.eq_of_mem_replicate hb, Function.update_same]
    exact vcKernel07_preserves key mode a _ ha (add8_lt _ _)
  exact revCw_lt hfinal

/-- One step of the Videocrypt P09 kernel, from `_vc_kernel09` in
videocrypt-ca.c: three mixing rounds over state pairs `(temp[i], temp[i+1])`
for `i = 0, 2, 4`, each looking the low six bits of `temp[i]` up in the
256-byte card key split at offset `0x98`, with additive feedback
`a = rotl(a) + 0x49`, followed by a fixed post-mix of `temp[0]` and
`temp[1]` with carry propagation and the constants `0x39` and `0x8F`. -/
def vcKernel09 (key : Nat → Nat) (inp : Nat) (out : List Nat) : List Nat :=
  let p := ([0, 2, 4] : List Nat).foldl
    (fun (p : List Nat × Nat) i =>
      let t := p.1
      let a := p.2
      let b0 := (t.getD i 0) &&& 0x3F
      let b := key b0 ^^^ key (b0 + 0x98)
      let c := sub8 (a + b) (t.getD (i + 1) 0)
      let d := (sub8 (t.getD i 0) (t.getD (i + 1) 0)) ^^^ a
      let m := d * c
      let t := t.set (i + 2) ((t.getD (i + 2) 0) ^^^ (m &&& 0xFF))
      let t := t.set (i + 3) (add8 (t.getD (i + 3) 0) (m >>> 8))
      (t, add8 (rotateLeft a) 0x49))
    (out, inp)
  let t := p.1
  let m := (t.getD 6 0) * (t.getD 7 0)
  let a := add8 (m &&& 0xFF) (t.getD 0 0)
  let a := if a < t.getD 0 0 then (a + 1) % 256 else a
  let t := t.set 0 (add8 a 0x39)
  let a2 := add8 (m >>> 8) (t.getD 1 0)
  let a2 := if a2 < t.getD 1 0 then (a2 + 1) % 256 else a2
  t.set 1 (add8 a2 0x8F)

/-- The P09 answer state after the kernel has run over message bytes 0..26
(first loop of `_vc_process_p09_msg`). -/
def vcP09Cw0 (key : Nat → Nat) (msg : Nat → Nat) : List Nat :=
  ((List.range 27).map msg).foldl (fun c i => vcKernel09 key i c)
    (List.replicate 8 0)

/-- One signature iteration of `_vc_process_p09_msg`: the kernel runs twice
on the previous output byte `b`, then `b = message[i] = cw[7]`. -/
def vcP09SigStep (key : Nat → Nat) (p : (Nat → Nat) × List Nat × Nat)
    (i : Nat) : (Nat → Nat) × List Nat × Nat :=
  let cw := vcKernel09 key p.2.2 (vcKernel09 key p.2.2 p.2.1)
  let b := cw.getD 7 0
  (Function.update p.1 i b, cw, b)

/-- Message and answer state after the P09 signature phase (bytes 27..30). -/
def vcP09Signature (key : Nat → Nat) (msg : Nat → Nat) :
    (Nat → Nat) × List Nat × Nat :=
  ([27, 28, 29, 30] : List Nat).foldl (vcP09SigStep key)
    (msg, vcP09Cw0 key msg, 0)

/-- `_vc_process_p09_msg` on the plain Sky 09 path (the `VC_SKY09_NANO`
nanocommand processing is skipped, as for mode `VC_SKY09` in the source):
the kernel runs over message bytes 0..26, the signature fills bytes 27..30
from `cw[7]` with the previous byte fed back, byte 31 is set to the CRC,
the kernel is iterated 64 more times on the CRC byte, and the answer is
packed by `_rev_cw`. -/
def vcProcessP09Msg (key : Nat → Nat) (msg : Nat → Nat) :
    (Nat → Nat) × Nat :=
  let p := vcP09Signature key msg
  let m2 := Function.update p.1 31 (vcCrc p.1)
  let cw2 := (List.replicate 64 (m2 31)).foldl (fun c i => vcKernel09 key i c)
    p.2.1
  (m2, revCw cw2)

/-- The P09 kernel step keeps the 8 state bytes byte-bounded: every write
into the state is masked to a byte. -/
theorem vcKernel09_preserves (key : Nat → Nat) (inp : Nat) (out : List Nat)
    (hout : ∀ b ∈ out, b < 256) : ∀ b ∈ vcKernel09 key inp out, b < 256 := by
  have hfold := foldl_preserve
    (P := fun p : List Nat × Nat => ∀ b ∈ p.1, b < 256)
    (f := fun (p : List Nat × Nat) i =>
      let t := p.1
      let a := p.2
      let b0 := (t.getD i 0) &&& 0x3F
      let b := key b0 ^^^ key (b0 + 0x98)
      let c := sub8 (a + b) (t.getD (i + 1) 0)
      let d := (sub8 (t.getD i 0) (t.getD (i + 1) 0)) ^^^ a
      let m := d * c
      let t := t.set (i + 2) ((t.getD (i + 2) 0) ^^^ (m &&& 0xFF))
      let t := t.set (i + 3) (add8 (t.getD (i + 3) 0) (m >>> 8))
      (t, add8 (rotateLeft a) 0x49))
    [0, 2, 4] (out, inp)
    (fun p i _ hp =>
      byteBound_set
        (byteBound_set hp (xor8_lt (byteBound_getD hp _)
          (Nat.lt_succ_of_le Nat.and_le_right)))
        (add8_lt _ _))
    hout
  exact byteBound_set (byteBound_set hfold (add8_lt _ _)) (add8_lt _ _)

attribute [irreducible] vcKernel09

/-- The P09 state after the first kernel pass is byte-bounded. -/
theorem vcP09Cw0_bytes (key : Nat → Nat) (msg : Nat → Nat) :
    ∀ b ∈ vcP09Cw0 key msg, b < 256 := by
  refine foldl_preserve (P := fun c : List Nat => ∀ b ∈ c, b < 256)
    _ _ (fun a b _ ha => vcKernel09_preserves key b a ha) (fun b hb => ?_)
  rw [List.eq_of_mem_replicate hb]
  decide

attribute [irreducible] vcP09Cw0

/-- The P09 state after the signature phase is byte-bounded. -/
theorem vcP09Signature_bytes (key : Nat → Nat) (msg : Nat → Nat) :
    ∀ b ∈ (vcP09Signature key msg).2.1, b < 256 := by
  refine foldl_preserve
    (P := fun p : (Nat → Nat) × List Nat × Nat => ∀ b ∈ p.2.1, b < 256)
    _ _ (fun p i _ hp => ?_) (vcP09Cw0_bytes key msg)
  show ∀ b ∈ vcKernel09 key p.2.2 (vcKernel09 key p.2.2 p.2.1), b < 256
  exact vcKernel09_preserves key p.2.2 _ (vcKernel09_preserves key p.2.2 _ hp)

attribute [irreducible] vcP09Signature

/-- The control word produced by `_vc_process_p09_msg` stays below `2^60`:
every write of the P09 kernel is masked to a byte. -/
theorem vcProcessP09Msg_cw_lt (key : Nat → Nat) (msg : Nat → Nat) :
    (vcProcessP09Msg key msg).2 < 2 ^ 60 := by
  have hfinal : ∀ b ∈ (List.replicate 64
      ((Function.update (vcP09Signature key msg).1 31
        (vcCrc (vcP09Signature key msg).1)) 31)).foldl
      (fun c i => vcKernel09 key i c) (vcP09Signature key msg).2.1, b < 256 :=
    foldl_preserve (P := fun c : List Nat => ∀ b ∈ c, b < 256)
      _ _ (fun a b _ ha => vcKernel09_preserves key b a ha)
      (vcP09Signature_bytes key msg)
  exact revCw_lt hfinal

/-- The code table `tab_1421` from videocrypt-ca.c ("dumb" card support). -/
def tab1421 : List Nat := [0x59, 0x2B, 0x71, 0x22, 0xCF, 0xB7, 0x33, 0x4F]

/-- The 256-byte `moduli` data table from videocrypt-ca.c. -/
def moduli : List Nat := [
  0xB1, 0xFD, 0x91, 0x2C, 0x6D, 0xB8, 0xB6, 0xBE,
  0x15, 0x08, 0x0D, 0xE2, 0x83, 0xB1, 0xE8, 0x0B,
  0x36, 0xB0, 0x47, 0xEA, 0xA1, 0x10, 0xA7, 0x8E,
  0xAA, 0x2E, 0x94, 0xC8, 0x47, 0x41, 0xFE, 0x87,
  0x7E, 0xEC, 0x67, 0x45, 0xAB, 0x89, 0x84, 0xA5,
  0xEF, 0xCD, 0x23, 0x01, 0x67, 0x45, 0x2D, 0x46,
  0xAB, 0xA9, 0xEF, 0xCD, 0x24, 0x93, 0x02, 0x67,
  0x1B, 0x4F, 0x81, 0x95, 0xA7, 0x01, 0x00, 0x01,
  0x29, 0x9F, 0xC9, 0x85, 0x19, 0xB9, 0x53, 0x53,
  0x92, 0x52, 0x90, 0x5A, 0x44, 0x2D, 0xCA, 0xD4,
  0x90, 0x8D, 0x3A, 0xAD, 0xFB, 0x2B, 0x00, 0x9D,
  0xE4, 0x0C, 0xB8, 0x81, 0x28, 0xBF, 0xE9, 0x0B,
  0x85, 0x7C, 0xAD, 0x90, 0x41, 0xE7, 0x7A, 0xBA,
  0x9D, 0xEF, 0x7E, 0x83, 0x82, 0x0D, 0x0A, 0xCE,
  0x64, 0x77, 0x83, 0x1E, 0x1D, 0x80, 0x26, 0xF5,
  0x48, 0xA4, 0x39, 0x6E, 0xC3, 0x01, 0x00, 0x01,
  0x0D, 0x2D, 0xC9, 0x25, 0x51, 0x4A, 0xA3, 0x85,
  0x8B, 0xDC, 0xC7, 0x25, 0x40, 0x0C, 0xB8, 0x61,
  0x0C, 0xF9, 0xC1, 0x21, 0xBD, 0x3D, 0x57, 0x6D,
  0x6C, 0x71, 0x2F, 0xA4, 0xCC, 0x93, 0x40, 0x37,
  0xDE, 0x32, 0x39, 0x65, 0xC1, 0x8D, 0x63, 0x6A,
  0x49, 0xB6, 0xE1, 0xD0, 0x73, 0x5E, 0xDE, 0x9C,
  0x12, 0xA7, 0xC3, 0x34, 0x5E, 0x38, 0x8C, 0x73,
  0x05, 0x4E, 0x63, 0x41, 0x0A, 0x01, 0x00, 0x01,
  0xE5, 0x20, 0x5B, 0xD5, 0x56, 0xD1, 0x9B, 0xA9,
  0xA5, 0x54, 0xB7, 0x83, 0x16, 0xDE, 0x36, 0x0B,
  0xD6, 0x03, 0x58, 0x1B, 0xE0, 0x0D, 0x36, 0x72,
  0xAD, 0x6B, 0x69, 0xDA, 0xD9, 0x99, 0x16, 0xBC,
  0xCB, 0x24, 0xF6, 0x65, 0xB4, 0x45, 0xA6, 0xBB,
  0xED, 0x53, 0x3E, 0xB0, 0xF7, 0xB8, 0xF5, 0xEA,
  0xA6, 0xB7, 0xAF, 0x64, 0xED, 0xA2, 0xE7, 0xFE,
  0xC2, 0x57, 0xC4, 0xD1, 0x0B, 0x01, 0x00, 0x01]

/-- The inner loop of `_hash_ppv` for one outer round with table byte `t`:
`for j in 1..len-1: m = (t + answ[j-1]) & 0xFF;
answ[j] = _rotate_left(answ[j] ^ moduli[m])` — the argument of
`_rotate_left` is truncated to a byte by the `uint8_t` parameter. -/
def hashPpvInner (t : Nat) (answ : List Nat) : List Nat :=
  (List.range (answ.length - 1)).foldl
    (fun a j =>
      a.set (j + 1) (rotateLeft ((a.getD (j + 1) 0 ^^^
        moduli.getD ((t + a.getD j 0) &&& 0xFF) 0) &&& 0xFF)))
    answ

/-- One outer round of `_hash_ppv`: the inner loop with `tab_1421[i]`,
then `answ[0] ^= answ[len-1]`. -/
def hashPpvOuterStep (answ : List Nat) (i : Nat) : List Nat :=
  let a := hashPpvInner (tab1421.getD i 0) answ
  a.set 0 ((a.getD 0 0) ^^^ (a.getD (a.length - 1) 0))

/-- `_hash_ppv`: eight outer rounds over the answer buffer. -/
def hashPpv (answ : List Nat) : List Nat :=
  (List.range 8).foldl hashPpvOuterStep answ

/-- The inner `_hash_ppv` loop keeps the buffer byte-bounded. -/
theorem hashPpvInner_bytes (t : Nat) (answ : List Nat)
    (h : ∀ b ∈ answ, b < 256) : ∀ b ∈ hashPpvInner t answ, b < 256 :=
  foldl_preserve (P := fun a : List Nat => ∀ b ∈ a, b < 256)
    _ _ (fun _ _ _ ha => byteBound_set ha (rotateLeft_lt _)) h

/-- One outer `_hash_ppv` round keeps the buffer byte-bounded. -/
theorem hashPpvOuterStep_bytes (answ : List Nat) (i : Nat)
    (h : ∀ b ∈ answ, b < 256) : ∀ b ∈ hashPpvOuterStep answ i, b < 256 := by
  have h1 := hashPpvInner_bytes (tab1421.getD i 0) answ h
  exact byteBound_set h1 (xor8_lt (byteBound_getD h1 _) (byteBound_getD h1 _))

attribute [irreducible] hashPpvInner

/-- `_hash_ppv` keeps the buffer byte-bounded. -/
theorem hashPpv_bytes (answ : List Nat) (h : ∀ b ∈ answ, b < 256) :
    ∀ b ∈ hashPpv answ, b < 256 :=
  foldl_preserve (P := fun a : List Nat => ∀ b ∈ a, b < 256)
    _ _ (fun a i _ ha => hashPpvOuterStep_bytes a i ha) h

attribute [irreducible] hashPpv

/-- The buffer `msg[1..22]` of `vc_seed_ppv` after `_hash_ppv(&msg[1], 22)`:
before hashing, `msg[1] ^= serial[0] ^ ppv_card_data[5]` and
`msg[2] ^= serial[1] ^ ppv_card_data[6]` where `serial` is the hash of the
five card-serial bytes; `msg[3..22]` hold message bytes 3..22 unchanged
(bytes 21 and 22 were overwritten with random bytes, which are part of the
`msg0` input here). -/
def ppvMid (msg0 : Nat → Nat) (card : Nat → Nat) : List Nat :=
  hashPpv
    ((msg0 1 ^^^ ((hashPpv ((List.range 5).map card)).getD 0 0 ^^^ card 5)) ::
     (msg0 2 ^^^ ((hashPpv ((List.range 5).map card)).getD 1 0 ^^^ card 6)) ::
     (List.range 20).map (fun i => msg0 (i + 3)))

/-- The control word assembled by `vc_seed_ppv`: `msg[8] &= 0x0F`, then
`codeword = msg[i+1] << (i*8) | codeword` for `i = 0..7`, so bytes
`msg[1..8]` (entries 0..7 of the hashed buffer) are packed little-endian
with the top nibble masked. -/
def vcSeedPpvCw (msg0 : Nat → Nat) (card : Nat → Nat) : Nat :=
  let mid := ppvMid msg0 card
  (mid.getD 0 0) ||| ((mid.getD 1 0) <<< 8) ||| ((mid.getD 2 0) <<< 16) |||
  ((mid.getD 3 0) <<< 24) ||| ((mid.getD 4 0) <<< 32) |||
  ((mid.getD 5 0) <<< 40) ||| ((mid.getD 6 0) <<< 48) |||
  (((mid.getD 7 0) &&& 0x0F) <<< 56)

/-- The hashed PPV buffer is byte-bounded when message and card bytes are. -/
theorem ppvMid_bytes (msg0 : Nat → Nat) (card : Nat → Nat)
    (hm : ∀ i, msg0 i < 256) (hc : ∀ i, card i < 256) :
    ∀ b ∈ ppvMid msg0 card, b < 256 := by
  have hserial : ∀ b ∈ hashPpv ((List.range 5).map card), b < 256 := by
    refine hashPpv_bytes _ fun b hb => ?_
    rcases List.mem_map.mp hb with ⟨i, _, rfl⟩
    exact hc i
  refine hashPpv_bytes _ fun b hb => ?_
  rcases List.mem_cons.mp hb with h1 | hb
  · subst h1
    exact xor8_lt (hm 1) (xor8_lt (byteBound_getD hserial 0) (hc 5))
  rcases List.mem_cons.mp hb with h2 | hb
  · subst h2
    exact xor8_lt (hm 2) (xor8_lt (byteBound_getD hserial 1) (hc 6))
  rcases List.mem_map.mp hb with ⟨i, _, rfl⟩
  exact hm (i + 3)

/-- The `vc_seed_ppv` control word stays below `2^60`. -/
theorem vcSeedPpvCw_lt (msg0 : Nat → Nat) (card : Nat → Nat)
    (hm : ∀ i, msg0 i < 256) (hc : ∀ i, card i < 256) :
    vcSeedPpvCw msg0 card < 2 ^ 60 := by
  have h := ppvMid_bytes msg0 card hm hc
  have h256 : (256 : Nat) ≤ 2 ^ 60 := by decide
  have h0 : (ppvMid msg0 card).getD 0 0 < 2 ^ 60 :=
    lt_of_lt_of_le (byteBound_getD h 0) h256
  have h7 : ((ppvMid msg0 card).getD 7 0) &&& 0x0F < 2 ^ 4 :=
    Nat.lt_succ_of_le (le_trans Nat.and_le_right (by decide))
  exact or60_lt (or60_lt (or60_lt (or60_lt (or60_lt (or60_lt (or60_lt h0
    (byteShift_lt (byteBound_getD h 1) (by decide)))
    (byteShift_lt (byteBound_getD h 2) (by decide)))
    (byteShift_lt (byteBound_getD h 3) (by decide)))
    (byteShift_lt (byteBound_getD h 4) (by decide)))
    (byteShift_lt (byteBound_getD h 5) (by decide)))
    (byteShift_lt (byteBound_getD h 6) (by decide)))
    (pow2Shift_lt h7 (by decide))

/-- C10: every 64-bit control word stored by a Videocrypt seed operation
has its top four bits zero, i.e. is strictly below `2^60`: the P07 path
(`_vc_process_p07_msg` via `_rev_cw`) on byte-valued messages, the P09 path
(`_vc_process_p09_msg` via `_rev_cw`), the XTEA path (masked with
`0x0FFFFFFFFFFFFFFF`), and the PPV path (`msg[8] &= 0x0F` before packing);
and `_rev_cw` itself on any byte-valued answer vector. -/
theorem c10_codeword_below_2_60 :
    (∀ l : List Nat, (∀ b ∈ l, b < 256) → revCw l < 2 ^ 60) ∧
    (∀ (key : Nat → Nat) (mode : VCMode) (msg : Nat → Nat),
      (∀ i, msg i < 256) → (vcProcessP07Msg key mode msg).2 < 2 ^ 60) ∧
    (∀ (key : Nat → Nat) (msg : Nat → Nat),
      (vcProcessP09Msg key msg).2 < 2 ^ 60) ∧
    (∀ m : Nat → Nat, vcSeedXteaCw m < 2 ^ 60) ∧
    (∀ (msg0 : Nat → Nat) (card : Nat → Nat), (∀ i, msg0 i < 256) →
      (∀ i, card i < 256) → vcSeedPpvCw msg0 card < 2 ^ 60) := by
  refine ⟨fun l h => revCw_lt h, vcProcessP07Msg_cw_lt, vcProcessP09Msg_cw_lt,
    fun m => ?_, vcSeedPpvCw_lt⟩
  exact Nat.lt_succ_of_le Nat.and_le_right

/-- Witness for C10 at concrete all-zero keys, messages and card data. -/
theorem c10_codeword_below_2_60_witness :
    revCw [1, 2, 3, 4, 5, 6, 7, 8] < 2 ^ 60 ∧
    (vcProcessP07Msg (fun _ => 0) VCMode.SKY03 (fun _ => 0)).2 < 2 ^ 60 ∧
    (vcProcessP09Msg (fun _ => 0) (fun _ => 0)).2 < 2 ^ 60 ∧
    vcSeedXteaCw (fun _ => 0) < 2 ^ 60 ∧
    vcSeedPpvCw (fun _ => 0) (fun _ => 0) < 2 ^ 60 :=
  ⟨c10_codeword_below_2_60.1 [1, 2, 3, 4, 5, 6, 7, 8] (by decide),
    c10_codeword_below_2_60.2.1 (fun _ => 0) VCMode.SKY03 (fun _ => 0)
      (fun _ => Nat.succ_pos 255),
    c10_codeword_below_2_60.2.2.1 (fun _ => 0) (fun _ => 0),
    c10_codeword_below_2_60.2.2.2.1 (fun _ => 0),
    c10_codeword_below_2_60.2.2.2.2 (fun _ => 0) (fun _ => 0)
      (fun _ => Nat.succ_pos 255) (fun _ => Nat.succ_pos 255)⟩
